import Mathlib

/-!
Verification of the vibes orchestrator core against its specification.

Shallow embedding of the relevant source:
  * `src/frontend/realtime.py`      — EventBus SSE queues (drop-oldest backpressure)
  * `src/frontend/server.py`        — retry controller, autonomous agent driver
  * `src/frontend/task_progress.py` — progress tracker and stage detector
  * `src/mcp_server/gastown_integration.py` — Bead data model and BeadStore

Python dicts are embedded as association lists (insertion ordered) or as
total functions with a default, machine behaviour that the claims do not
exercise (threads, real clocks) is made explicit as step functions over
state, and fallible operations return `Except` or `Option`.
-/

set_option maxRecDepth 100000

namespace Vibes

/-! ## EventBus SSE queues (src/frontend/realtime.py) -/

/-- Capacity of one SSE subscriber queue: `queue.Queue(maxsize=100)`
in `EventBus.create_sse_queue` (realtime.py line 95). -/
def SSE_MAXSIZE : Nat := 100

/-- The per-queue part of `EventBus.emit` (realtime.py lines 120-129):
`put_nowait` succeeds while the queue holds fewer than `maxsize` events;
on `queue.Full` the oldest event is removed with `get_nowait` and the new
event is pushed.  The queue is a FIFO list, head = oldest. -/
def sse_put {α : Type} (q : List α) (e : α) : List α :=
  if q.length < SSE_MAXSIZE then q ++ [e] else q.drop 1 ++ [e]

/-- Emitting a whole sequence of events to one subscriber queue, in order. -/
def sse_put_all {α : Type} (q : List α) (es : List α) : List α :=
  es.foldl sse_put q

/-! ## Retry controller (src/frontend/server.py) -/

/-- `MAX_RETRIES = int(os.environ.get("VIBES_MAX_RETRIES", "3"))`
(server.py line 138); the default value is modelled. -/
def MAX_RETRIES : Nat := 3

/-- The retry controller state: `_retry_counts` (dict task_id -> attempt
count, `.get(task_id, 0)` default) and `_retry_queue` (list of task ids),
server.py lines 147-148. -/
structure RetryState where
  retry_counts : String → Nat
  retry_queue : List String

/-- `queue_for_retry` (server.py lines 1167-1182): reads the attempt count,
and if it is below `MAX_RETRIES`, stores count+1, appends the task id to the
retry queue and returns `True`; otherwise returns `False` without change. -/
def queue_for_retry (s : RetryState) (task_id : String) : RetryState × Bool :=
  let attempts := s.retry_counts task_id
  if attempts < MAX_RETRIES then
    ({ retry_counts := fun x => if x = task_id then attempts + 1 else s.retry_counts x,
       retry_queue := s.retry_queue ++ [task_id] }, true)
  else
    (s, false)

/-! ## Task progress tracker (src/frontend/task_progress.py) -/

/-- `TaskStage` enum (task_progress.py lines 27-36). -/
inductive TaskStage where
  | starting
  | analyzing
  | planning
  | implementing
  | testing
  | reviewing
  | completed
  | failed
  deriving DecidableEq, Repr

/-- The `stage_progress` map inside `update_stage`
(task_progress.py lines 138-147). -/
def stage_progress : TaskStage → Nat
  | .starting => 5
  | .analyzing => 15
  | .planning => 30
  | .implementing => 60
  | .testing => 80
  | .reviewing => 90
  | .completed => 100
  | .failed => 0

/-- `TaskStage.display_name` (task_progress.py lines 52-62). -/
def display_name : TaskStage → String
  | .starting => "Starting"
  | .analyzing => "Analyzing"
  | .planning => "Planning"
  | .implementing => "Implementing"
  | .testing => "Testing"
  | .reviewing => "Reviewing"
  | .completed => "Completed"
  | .failed => "Failed"

/-- The `TaskProgress` dataclass (task_progress.py lines 65-77);
timestamps are opaque strings supplied by the caller of each operation. -/
structure TaskProgress where
  task_id : String
  task_name : String
  stage : TaskStage
  stage_message : String := ""
  started_at : String := ""
  updated_at : String := ""
  progress_percent : Nat := 0
  retro : Option String := none
  error : Option String := none
  deriving DecidableEq, Repr

/-- State of a `TaskProgressTracker`: `current_tasks` is the insertion
ordered dict task_id -> TaskProgress; `cleanup_scheduled` records the task
ids whose 30-second removal thread has been spawned by `complete_task`
(task_progress.py lines 171-177) and has not fired yet. -/
structure TrackerState where
  current_tasks : List (String × TaskProgress) := []
  cleanup_scheduled : List String := []
  deriving DecidableEq, Repr

/-- Python dict assignment `d[k] = v` on an insertion-ordered dict:
replace in place when the key exists, append otherwise. -/
def assocSet {β : Type} (l : List (String × β)) (k : String) (v : β) :
    List (String × β) :=
  if (l.lookup k).isSome then
    l.map (fun kv => if kv.1 = k then (k, v) else kv)
  else
    l ++ [(k, v)]

/-- `TaskProgressTracker.start_task` (task_progress.py lines 111-128):
inserts a fresh entry in stage `starting` at 5% and emits one progress
event.  The second component is the list of emitted progress events. -/
def start_task (s : TrackerState) (now : String) (task_id task_name : String) :
    TrackerState × List TaskProgress :=
  let progress : TaskProgress :=
    { task_id := task_id, task_name := task_name, stage := .starting,
      stage_message := "Picking up task...", started_at := now,
      updated_at := now, progress_percent := 5 }
  ({ s with current_tasks := assocSet s.current_tasks task_id progress }, [progress])

/-- `TaskProgressTracker.update_stage` (task_progress.py lines 130-154):
returns untouched when the id is untracked; otherwise sets the stage, the
message (default from the display name when empty), the timestamp and the
percent from `stage_progress`, then emits. -/
def update_stage (s : TrackerState) (now : String) (task_id : String)
    (stage : TaskStage) (message : String) : TrackerState × List TaskProgress :=
  match s.current_tasks.lookup task_id with
  | none => (s, [])
  | some progress =>
    let progress' : TaskProgress :=
      { progress with
          stage := stage
          stage_message := if message = "" then display_name stage ++ "..." else message
          updated_at := now
          progress_percent := stage_progress stage }
    ({ s with current_tasks := assocSet s.current_tasks task_id progress' }, [progress'])

/-- `TaskProgressTracker.complete_task` (task_progress.py lines 156-177):
returns untouched when the id is untracked; otherwise records the terminal
`completed` state at 100% with the retro, emits, and spawns the cleanup
thread that removes the entry after 30 seconds. -/
def complete_task (s : TrackerState) (now : String) (task_id retro : String) :
    TrackerState × List TaskProgress :=
  match s.current_tasks.lookup task_id with
  | none => (s, [])
  | some progress =>
    let progress' : TaskProgress :=
      { progress with
          stage := .completed
          stage_message := "Task completed successfully"
          updated_at := now
          progress_percent := 100
          retro := some retro }
    ({ current_tasks := assocSet s.current_tasks task_id progress',
       cleanup_scheduled := s.cleanup_scheduled ++ [task_id] }, [progress'])

/-- `TaskProgressTracker.fail_task` (task_progress.py lines 179-191):
returns untouched when the id is untracked; otherwise records the terminal
`failed` state and the error text and emits.  The source neither updates
`progress_percent` nor spawns a cleanup thread here. -/
def fail_task (s : TrackerState) (now : String) (task_id error : String) :
    TrackerState × List TaskProgress :=
  match s.current_tasks.lookup task_id with
  | none => (s, [])
  | some progress =>
    let progress' : TaskProgress :=
      { progress with
          stage := .failed
          stage_message := "Task failed"
          updated_at := now
          error := some error }
    ({ s with current_tasks := assocSet s.current_tasks task_id progress' }, [progress'])

/-- `TaskProgressTracker.get_all_progress` (task_progress.py lines 193-196):
snapshot of the tracked entries. -/
def get_all_progress (s : TrackerState) : List TaskProgress :=
  s.current_tasks.map (fun kv => kv.2)

/-- Thirty seconds elapse: every cleanup thread spawned by `complete_task`
fires (`time.sleep(30)` then `current_tasks.pop(task_id, None)`,
task_progress.py lines 172-175).  No other mechanism removes entries. -/
def run_cleanups (s : TrackerState) : TrackerState :=
  { current_tasks := s.current_tasks.filter (fun kv => !(s.cleanup_scheduled.contains kv.1)),
    cleanup_scheduled := [] }

/-- One tracker operation, as invoked by `run_autonomous_claude`
(server.py lines 1313, 1427, 1459, 1486). -/
inductive TrackerOp where
  | start (now task_id task_name : String)
  | update (now task_id : String) (stage : TaskStage) (message : String)
  | complete (now task_id retro : String)
  | fail (now task_id error : String)
  deriving DecidableEq, Repr

/-- Dispatch one tracker operation. -/
def applyOp (s : TrackerState) : TrackerOp → TrackerState × List TaskProgress
  | .start now task_id task_name => start_task s now task_id task_name
  | .update now task_id stage message => update_stage s now task_id stage message
  | .complete now task_id retro => complete_task s now task_id retro
  | .fail now task_id error => fail_task s now task_id error

/-- The tracked percent of a task, when the task is tracked. -/
def percentOf (s : TrackerState) (task_id : String) : Option Nat :=
  (s.current_tasks.lookup task_id).map (fun p => p.progress_percent)

/-- The tracked stage of a task, when the task is tracked. -/
def stageOf (s : TrackerState) (task_id : String) : Option TaskStage :=
  (s.current_tasks.lookup task_id).map (fun p => p.stage)

/-! ## Stage detector (src/frontend/task_progress.py lines 211-244) -/

/-- The apostrophe character, written numerically. -/
def apos : Char := Char.ofNat 39

/-- Keyword list for `TaskStage.ANALYZING` in `STAGE_PATTERNS`. -/
def ANALYZING_PATTERNS : List (List Char) :=
  [ ("let me read").toList, ("reading").toList, ("examining").toList,
    ("looking at").toList, ("checking").toList, ("understanding").toList,
    ("analyzing").toList, ("reviewing the code").toList, ("let me understand").toList ]

/-- Keyword list for `TaskStage.PLANNING` in `STAGE_PATTERNS`. -/
def PLANNING_PATTERNS : List (List Char) :=
  [ ("i").toList ++ [apos] ++ ("ll need to").toList, ("the plan is").toList,
    ("i will").toList, ("planning to").toList, ("approach:").toList,
    ("steps:").toList, ("first,").toList, ("let me plan").toList,
    ("strategy").toList ]

/-- Keyword list for `TaskStage.IMPLEMENTING` in `STAGE_PATTERNS`. -/
def IMPLEMENTING_PATTERNS : List (List Char) :=
  [ ("creating").toList, ("writing").toList, ("adding").toList,
    ("implementing").toList, ("let me write").toList, ("edit tool").toList,
    ("write tool").toList, ("modifying").toList, ("updating").toList ]

/-- Keyword list for `TaskStage.TESTING` in `STAGE_PATTERNS`. -/
def TESTING_PATTERNS : List (List Char) :=
  [ ("running tests").toList, ("testing").toList, ("npm test").toList,
    ("pytest").toList, ("go test").toList, ("verifying").toList,
    ("checking if").toList, ("make sure").toList ]

/-- Keyword list for `TaskStage.REVIEWING` in `STAGE_PATTERNS`. -/
def REVIEWING_PATTERNS : List (List Char) :=
  [ ("looks good").toList, ("review").toList, ("final check").toList,
    ("everything is").toList, ("completed").toList, ("summarizing").toList,
    ("recap").toList, ("done with").toList ]

/-- `STAGE_PATTERNS` (task_progress.py lines 211-232), in the declaration
order of the Python dict literal, which Python iteration preserves. -/
def STAGE_PATTERNS : List (TaskStage × List (List Char)) :=
  [ (.analyzing, ANALYZING_PATTERNS),
    (.planning, PLANNING_PATTERNS),
    (.implementing, IMPLEMENTING_PATTERNS),
    (.testing, TESTING_PATTERNS),
    (.reviewing, REVIEWING_PATTERNS) ]

/-- Python substring test `pattern in text` on character lists. -/
def list_contains (hay pat : List Char) : Bool :=
  match hay with
  | [] => pat.isEmpty
  | c :: t => pat.isPrefixOf (c :: t) || list_contains t pat

/-- Python `str.lower()` restricted to the ASCII range the patterns use. -/
def lower (l : List Char) : List Char := l.map Char.toLower

/-- The nested loop of `detect_stage_from_output`: first table entry with
any matching pattern wins. -/
def scan_stage_table : List (TaskStage × List (List Char)) → List Char → Option TaskStage
  | [], _ => none
  | (stage, pats) :: rest, ol =>
    if pats.any (fun p => list_contains ol p) then some stage
    else scan_stage_table rest ol

/-- `detect_stage_from_output` (task_progress.py lines 235-244). -/
def detect_stage_from_output (output : List Char) : Option TaskStage :=
  scan_stage_table STAGE_PATTERNS (lower output)

/-! ## Bead data model and YAML round trip
(src/mcp_server/gastown_integration.py) -/

/-- A YAML scalar or list value as it appears in a Bead file. -/
inductive YVal where
  | s (v : String)
  | i (v : Int)
  | ls (v : List String)
  deriving DecidableEq, Repr

/-- A parsed YAML document: the insertion-ordered key/value mapping
produced by `yaml.safe_load`. -/
abbrev YDoc : Type := List (String × YVal)

/-- The `Bead` dataclass (gastown_integration.py lines 80-105), with the
dataclass defaults; the timestamp defaults are supplied by the caller. -/
structure Bead where
  id : String
  name : String := ""
  description : String := ""
  test_cases : List String := []
  status : String := "pending"
  priority : Int := 0
  verification_status : String := "pending"
  verification_notes : String := ""
  quality_state : Option YVal := none
  created_at : String := ""
  updated_at : String := ""
  convoy_id : Option String := none
  assigned_to : Option String := none
  git_commit : Option String := none
  deriving DecidableEq, Repr

/-- `data.get(key, default)` for string-valued keys. -/
def getStr (doc : YDoc) (key : String) (dflt : String) : String :=
  match doc.lookup key with
  | some (.s v) => v
  | _ => dflt

/-- `data.get(key, default)` for integer-valued keys. -/
def getInt (doc : YDoc) (key : String) (dflt : Int) : Int :=
  match doc.lookup key with
  | some (.i v) => v
  | _ => dflt

/-- `data.get(key, default)` for string-list keys. -/
def getListStr (doc : YDoc) (key : String) (dflt : List String) : List String :=
  match doc.lookup key with
  | some (.ls v) => v
  | _ => dflt

/-- `data.get(key)` for optional string keys. -/
def getOptStr (doc : YDoc) (key : String) : Option String :=
  match doc.lookup key with
  | some (.s v) => some v
  | _ => none

/-- `Bead.from_yaml` (gastown_integration.py lines 133-152): only the
fourteen schema keys are read with `data.get`; every other key of the
document is ignored.  `now` stands for `datetime.now().isoformat()` used
as the timestamp default. -/
def from_yaml (doc : YDoc) (now : String) : Bead :=
  { id := getStr doc "id" ""
    name := getStr doc "name" ""
    description := getStr doc "description" ""
    test_cases := getListStr doc "test_cases" []
    status := getStr doc "status" "pending"
    priority := getInt doc "priority" 0
    verification_status := getStr doc "verification_status" "pending"
    verification_notes := getStr doc "verification_notes" ""
    quality_state := doc.lookup "quality_state"
    created_at := getStr doc "created_at" now
    updated_at := getStr doc "updated_at" now
    convoy_id := getOptStr doc "convoy_id"
    assigned_to := getOptStr doc "assigned_to"
    git_commit := getOptStr doc "git_commit" }

/-- `Bead.to_yaml` (gastown_integration.py lines 107-131): emits exactly
the fourteen schema keys in declaration order and removes entries whose
value is `None`. -/
def to_yaml (b : Bead) : YDoc :=
  ([ ("id", some (.s b.id)),
     ("name", some (.s b.name)),
     ("description", some (.s b.description)),
     ("test_cases", some (.ls b.test_cases)),
     ("status", some (.s b.status)),
     ("priority", some (.i b.priority)),
     ("verification_status", some (.s b.verification_status)),
     ("verification_notes", some (.s b.verification_notes)),
     ("quality_state", b.quality_state),
     ("created_at", some (.s b.created_at)),
     ("updated_at", some (.s b.updated_at)),
     ("convoy_id", b.convoy_id.map YVal.s),
     ("assigned_to", b.assigned_to.map YVal.s),
     ("git_commit", b.git_commit.map YVal.s) ] : List (String × Option YVal)
  ).filterMap (fun kv => kv.2.map (fun v => (kv.1, v)))

/-- The fourteen keys of the Bead file schema. -/
def KNOWN_BEAD_KEYS : List String :=
  [ "id", "name", "description", "test_cases", "status", "priority",
    "verification_status", "verification_notes", "quality_state",
    "created_at", "updated_at", "convoy_id", "assigned_to", "git_commit" ]

/-- Deserialize then serialize again, as `load` followed by `save` does
with the document (`save` additionally refreshes `updated_at`, which is a
schema key and does not affect unknown keys). -/
def yaml_round_trip (doc : YDoc) (now : String) : YDoc :=
  to_yaml (from_yaml doc now)

/-! ## BeadStore.get_next (gastown_integration.py lines 301-328) -/

/-- Lexicographic comparison of Python strings by code point, on the
character lists of the two strings. -/
def strLe : List Char → List Char → Bool
  | [], _ => true
  | _ :: _, [] => false
  | a :: as, b :: bs =>
    if a.toNat < b.toNat then true
    else if b.toNat < a.toNat then false
    else strLe as bs

/-- The sort key of `pending.sort(key=lambda b: (-b.priority, b.id))`
(gastown_integration.py line 325), as a boolean order:
`(-p1, id1) <= (-p2, id2)` in Python tuple order. -/
def le_pending (a b : Bead) : Bool :=
  decide (b.priority < a.priority) ||
    (decide (a.priority = b.priority) && strLe a.id.toList b.id.toList)

/-- `BeadStore.get_next` (gastown_integration.py lines 301-328) applied to
the list `load_all()` returns; that list is in `glob` order, which is
arbitrary.  The first `in_progress` bead of the list is returned
unsorted (`in_progress[0]`), then the first `needs_review` bead
(`needs_review[0]`), then the head of the pending beads sorted by
`(-priority, id)`, else `None`. -/
def get_next (beads : List Bead) : Option Bead :=
  match beads.filter (fun b => b.status == "in_progress") with
  | b :: _ => some b
  | [] =>
    match beads.filter (fun b => b.status == "needs_review") with
    | b :: _ => some b
    | [] =>
      match (beads.filter (fun b => b.status == "pending")).mergeSort le_pending with
      | b :: _ => some b
      | [] => none

/-! ## BeadStore.save (gastown_integration.py lines 222-255) -/

/-- Outcome flags of the external commands `save` runs: the file write
(`Path.write_text`, which raises on failure), `git add` and `git commit`
(both run with `check=False`, so their failure is invisible), and
`git rev-parse HEAD` inside `_get_current_commit`.  `head_before` is the
commit `HEAD` names before `save` runs; `head_after_commit` is the new
commit created when `git commit` succeeds. -/
structure GitEnv where
  writeOk : Bool
  addOk : Bool
  commitOk : Bool
  revParseOk : Bool
  head_before : String
  head_after_commit : String
  deriving DecidableEq, Repr

/-- Python slice `s[:12]`, written through the character list. -/
def take12 (s : String) : String := String.mk (s.toList.take 12)

/-- `BeadStore._get_current_commit` (gastown_integration.py lines 212-220)
as run right after the commit attempt: `git rev-parse HEAD` truncated to
12 characters, or `None` when rev-parse fails. -/
def get_current_commit (env : GitEnv) : Option String :=
  if env.revParseOk then
    some (take12 (if env.commitOk then env.head_after_commit else env.head_before))
  else none

/-- The result dict `save` returns (gastown_integration.py lines 250-255). -/
structure SaveResult where
  success : Bool
  bead_id : String
  path : String
  git_commit : Option String
  deriving DecidableEq, Repr

/-- The only error `save` can surface: the file write raising
(`StorageError` in the specification). -/
inductive StorageErr where
  | storageError
  deriving DecidableEq, Repr

/-- Path of a bead file: `.git/beads/<id>.yaml`
(gastown_integration.py lines 185, 198-200). -/
def bead_path (bead_id : String) : String :=
  ".git/beads/" ++ bead_id ++ ".yaml"

/-- `BeadStore.save` (gastown_integration.py lines 222-255): sets
`updated_at`, writes the file (raising on failure), then — when
`auto_commit` is on — runs `git add` and `git commit` with `check=False`,
ignoring their return codes, and refreshes `bead.git_commit` from
`rev-parse HEAD`.  Returns the result dict together with the mutated
bead.  `message` only shapes the commit message text. -/
def save (env : GitEnv) (auto_commit : Bool) (b : Bead) (now : String)
    (message : Option String) : Except StorageErr (SaveResult × Bead) :=
  let _commit_msg := message.getD ("Update bead: " ++ b.id ++ " (" ++ b.status ++ ")")
  let b1 : Bead := { b with updated_at := now }
  if env.writeOk then
    let b2 : Bead :=
      if auto_commit then { b1 with git_commit := get_current_commit env } else b1
    Except.ok
      ({ success := true, bead_id := b2.id, path := bead_path b2.id,
         git_commit := b2.git_commit }, b2)
  else
    Except.error .storageError

/-! ## The claim operation (C1)

`run_autonomous_claude` calls `_bead_store.claim_task(task_id, agent_id,
AGENT_TIMEOUT_MINUTES)` (src/frontend/server.py lines 1300-1302) and the
watchdog calls `_bead_store.release_lock` (line 1246) and
`_bead_store.is_locked` (line 1199), but no class under `src/` defines
these methods: the store side of the locking protocol is absent from the
sources.  It is therefore modelled from the specification. -/

/-- Modelled from the spec: the lock fields a Bead record carries for the
claim protocol — `status`, the optional `lock_holder`, and the deadline
data `lock_start + lock_timeout` (in minutes), per spec section 4.1
(`claim(id, holder_id, timeout_minutes)`).  The store method
`BeadStore.claim_task` referenced by src/frontend/server.py line 1300 is
missing from src/. -/
structure LockedBead where
  status : String
  lock_holder : Option String := none
  lock_start : Nat := 0
  lock_timeout : Nat := 0
  deriving DecidableEq, Repr

/-- Modelled from the spec: the store contents seen by the claim
operation, an id-keyed table of Beads with lock data. -/
structure ClaimStore where
  beads : List (String × LockedBead)
  deriving DecidableEq, Repr

/-- Replace the entry of an existing id. -/
def store_set (s : ClaimStore) (bead_id : String) (lb : LockedBead) : ClaimStore :=
  { beads := s.beads.map (fun kv => if kv.1 = bead_id then (bead_id, lb) else kv) }

/-- Modelled from the spec: `claim(id, holder_id, timeout_minutes) ->
lock_token?` (spec section 4.1): atomic; succeeds iff the Bead exists,
status is `pending` or `needs_review`, and either no `lock_holder` is set
or the existing lock deadline (start + timeout) has passed.  On success
sets `lock_holder = holder_id`, sets status to `in_progress`, persists,
and returns an opaque lock token.  `now` is the call time in minutes. -/
def claim_task (s : ClaimStore) (now : Nat) (bead_id holder_id : String)
    (timeout_minutes : Nat) : Option String × ClaimStore :=
  match s.beads.lookup bead_id with
  | none => (none, s)
  | some lb =>
    if (lb.status = "pending" ∨ lb.status = "needs_review") ∧
        (lb.lock_holder = none ∨ lb.lock_start + lb.lock_timeout < now) then
      let lb' : LockedBead :=
        { status := "in_progress", lock_holder := some holder_id,
          lock_start := now, lock_timeout := timeout_minutes }
      (some (bead_id ++ ":" ++ holder_id), store_set s bead_id lb')
    else
      (none, s)

/-- A schedule of claim calls on one Bead: call time, holder id, timeout. -/
def run_claims (s : ClaimStore) (bead_id : String) :
    List (Nat × String × Nat) → List Bool
  | [] => []
  | (t, h, tm) :: rest =>
    let r := claim_task s t bead_id h tm
    r.1.isSome :: run_claims r.2 bead_id rest

/-! ## Association-list helper lemmas -/

lemma lookup_map_replace {β : Type} (k : String) (v : β) :
    ∀ l : List (String × β), (l.lookup k).isSome = true →
      (l.map (fun kv => if kv.1 = k then (k, v) else kv)).lookup k = some v := by
  intro l
  induction l with
  | nil => intro h; simp [List.lookup] at h
  | cons a tl ih =>
    intro h
    rw [List.map_cons]
    by_cases hak : a.1 = k
    · rw [if_pos hak]
      simp [List.lookup]
    · rw [if_neg hak]
      have hne : (k == a.1) = false := beq_eq_false_iff_ne.mpr (Ne.symm hak)
      simp only [List.lookup, hne] at h ⊢
      exact ih h

lemma lookup_map_replace_ne {β : Type} (k : String) (v : β) (k' : String)
    (hne : k' ≠ k) :
    ∀ l : List (String × β),
      (l.map (fun kv => if kv.1 = k then (k, v) else kv)).lookup k' = l.lookup k' := by
  intro l
  induction l with
  | nil => simp
  | cons a tl ih =>
    rw [List.map_cons]
    by_cases hak : a.1 = k
    · have h1 : (k' == k) = false := beq_eq_false_iff_ne.mpr hne
      have h2 : (k' == a.1) = false := by rw [hak]; exact h1
      rw [if_pos hak]
      simp only [List.lookup, h1, h2]
      exact ih
    · rw [if_neg hak]
      simp only [List.lookup]
      cases hbe : (k' == a.1) with
      | true => rfl
      | false => exact ih

lemma lookup_append_right {β : Type} (k : String) (v : β) :
    ∀ l : List (String × β), l.lookup k = none →
      (l ++ [(k, v)]).lookup k = some v := by
  intro l
  induction l with
  | nil => intro _; simp [List.lookup]
  | cons a tl ih =>
    intro h
    cases hbe : (k == a.1) with
    | true =>
      simp only [List.lookup, hbe] at h
      simp at h
    | false =>
      simp only [List.lookup, hbe] at h
      simp only [List.cons_append, List.lookup, hbe]
      exact ih h

lemma lookup_append_single_ne {β : Type} (k : String) (v : β) (k' : String)
    (hne : k' ≠ k) :
    ∀ l : List (String × β), (l ++ [(k, v)]).lookup k' = l.lookup k' := by
  intro l
  induction l with
  | nil => simp [List.lookup, beq_eq_false_iff_ne.mpr hne]
  | cons a tl ih =>
    cases hbe : (k' == a.1) with
    | true => simp only [List.cons_append, List.lookup, hbe]
    | false =>
      simp only [List.cons_append, List.lookup, hbe]
      exact ih

lemma lookup_assocSet_self {β : Type} (l : List (String × β)) (k : String) (v : β) :
    (assocSet l k v).lookup k = some v := by
  unfold assocSet
  cases hs : (l.lookup k).isSome with
  | true => simp only [hs, if_pos]; exact lookup_map_replace k v l hs
  | false =>
    have hn : l.lookup k = none := Option.not_isSome_iff_eq_none.mp (by simp [hs])
    rw [if_neg (by simp)]
    exact lookup_append_right k v l hn

lemma lookup_assocSet_ne {β : Type} (l : List (String × β)) (k : String) (v : β)
    (k' : String) (hne : k' ≠ k) :
    (assocSet l k v).lookup k' = l.lookup k' := by
  unfold assocSet
  cases hs : (l.lookup k).isSome with
  | true => simp only [hs, if_pos]; exact lookup_map_replace_ne k v k' hne l
  | false =>
    rw [if_neg (by simp)]
    exact lookup_append_single_ne k v k' hne l

lemma lookup_filter_key {β : Type} (f : String → Bool) (t : String) :
    ∀ l : List (String × β),
      (l.filter (fun kv => f kv.1)).lookup t = if f t then l.lookup t else none := by
  intro l
  induction l with
  | nil => simp [List.lookup]
  | cons a tl ih =>
    by_cases hat : t = a.1
    · have hbe : (t == a.1) = true := by simpa using hat
      cases hfa : f a.1 with
      | true =>
        rw [List.filter_cons, if_pos (by simp [hfa])]
        simp only [List.lookup, hbe]
        rw [if_pos (by rw [hat]; exact hfa)]
      | false =>
        rw [List.filter_cons, if_neg (by simp [hfa]), ih]
        rw [if_neg (by rw [hat]; simp [hfa])]
        rw [if_neg (by rw [hat]; simp [hfa])]
    · have hbe : (t == a.1) = false := beq_eq_false_iff_ne.mpr hat
      cases hfa : f a.1 with
      | true =>
        rw [List.filter_cons, if_pos (by simp [hfa])]
        simp only [List.lookup, hbe]
        exact ih
      | false =>
        rw [List.filter_cons, if_neg (by simp [hfa]), ih]
        simp [List.lookup, hbe]

lemma lookup_mem_pair {β : Type} (k : String) (v : β) :
    ∀ l : List (String × β), l.lookup k = some v → (k, v) ∈ l := by
  intro l
  induction l with
  | nil => simp [List.lookup]
  | cons a tl ih =>
    intro h
    cases hbe : (k == a.1) with
    | true =>
      simp only [List.lookup, hbe] at h
      have hak : k = a.1 := by simpa using hbe
      have : (k, v) = a := by
        cases a
        simp only [Option.some.injEq] at h
        simp [hak, h]
      rw [this]
      exact List.mem_cons_self a tl
    | false =>
      simp only [List.lookup, hbe] at h
      exact List.mem_cons_of_mem _ (ih h)

/-! ## Order lemmas for the pending sort -/

lemma strLe_refl : ∀ a : List Char, strLe a a = true := by
  intro a
  induction a with
  | nil => rfl
  | cons x xs ih => simp [strLe, ih]

lemma strLe_total : ∀ a b : List Char, (strLe a b || strLe b a) = true := by
  intro a
  induction a with
  | nil => intro b; simp [strLe]
  | cons x xs ih =>
    intro b
    cases b with
    | nil => simp [strLe]
    | cons y ys =>
      simp only [strLe]
      by_cases h1 : x.toNat < y.toNat
      · simp [h1]
      · by_cases h2 : y.toNat < x.toNat
        · simp [h1, h2]
        · simp [h1, h2, ih ys]

lemma strLe_trans : ∀ a b c : List Char,
    strLe a b = true → strLe b c = true → strLe a c = true := by
  intro a
  induction a with
  | nil => intro b c _ _; rfl
  | cons x xs ih =>
    intro b c hab hbc
    cases b with
    | nil => simp [strLe] at hab
    | cons y ys =>
      cases c with
      | nil => simp [strLe] at hbc
      | cons z zs =>
        simp only [strLe] at hab hbc ⊢
        by_cases hxy : x.toNat < y.toNat
        · by_cases hyz : y.toNat < z.toNat
          · simp [show x.toNat < z.toNat by omega]
          · by_cases hzy : z.toNat < y.toNat
            · simp [hyz, hzy] at hbc
            · have hyz2 : y.toNat = z.toNat := by omega
              simp [show x.toNat < z.toNat by omega]
        · by_cases hyx : y.toNat < x.toNat
          · simp [hxy, hyx] at hab
          · have hxy2 : x.toNat = y.toNat := by omega
            by_cases hyz : y.toNat < z.toNat
            · simp [show x.toNat < z.toNat by omega]
            · by_cases hzy : z.toNat < y.toNat
              · simp [hyz, hzy] at hbc
              · have h1 : ¬ x.toNat < z.toNat := by omega
                have h2 : ¬ z.toNat < x.toNat := by omega
                rw [if_neg h1, if_neg h2]
                rw [if_neg hxy, if_neg hyx] at hab
                rw [if_neg hyz, if_neg hzy] at hbc
                exact ih ys zs hab hbc

lemma le_pending_refl : ∀ a : Bead, le_pending a a = true := by
  intro a
  simp [le_pending, strLe_refl]

lemma le_pending_total : ∀ a b : Bead, (le_pending a b || le_pending b a) = true := by
  intro a b
  rcases lt_trichotomy a.priority b.priority with h | h | h
  · simp [le_pending, h]
  · simp [le_pending, h, strLe_total]
  · simp [le_pending, h]

lemma le_pending_trans : ∀ a b c : Bead,
    le_pending a b = true → le_pending b c = true → le_pending a c = true := by
  intro a b c h1 h2
  simp only [le_pending, Bool.or_eq_true, Bool.and_eq_true, decide_eq_true_eq] at h1 h2 ⊢
  rcases h1 with h1 | ⟨h1e, h1s⟩ <;> rcases h2 with h2 | ⟨h2e, h2s⟩
  · left; omega
  · left; omega
  · left; omega
  · right; exact ⟨h1e.trans h2e, strLe_trans _ _ _ h1s h2s⟩

/-! ## Claim theorems -/

/-- Claim C2: every stream subscriber queue is bounded at capacity 100;
when `emit` finds the queue full it drops the oldest event and enqueues the
new one; and after emitting events 1..250 to a subscriber that never reads,
the next 100 reads yield events 151..250 in emit order (events 1..150 are
dropped). -/
theorem sse_backpressure_drop_oldest :
    (∀ (α : Type) (q : List α) (e : α),
      q.length ≤ SSE_MAXSIZE → (sse_put q e).length ≤ SSE_MAXSIZE) ∧
    (∀ (α : Type) (q : List α) (e : α),
      q.length = SSE_MAXSIZE → sse_put q e = q.drop 1 ++ [e]) ∧
    sse_put_all ([] : List Nat) (List.range' 1 250) = List.range' 151 100 := by
  refine ⟨?_, ?_, by decide⟩
  · intro α q e hq
    unfold sse_put
    by_cases h : q.length < SSE_MAXSIZE
    · rw [if_pos h]
      simp only [List.length_append, List.length_cons, List.length_nil]
      simp only [SSE_MAXSIZE] at h hq ⊢
      omega
    · rw [if_neg h]
      simp only [List.length_append, List.length_drop, List.length_cons, List.length_nil]
      simp only [SSE_MAXSIZE] at h hq ⊢
      omega
  · intro α q e hq
    unfold sse_put
    rw [hq, if_neg (lt_irrefl SSE_MAXSIZE)]

/-- Witness for C2 at concrete inputs: a queue of length 1 stays within
bounds, and a full queue of 100 events drops its oldest entry. -/
theorem sse_backpressure_drop_oldest_witness :
    (sse_put ([7] : List Nat) 8).length ≤ SSE_MAXSIZE ∧
    sse_put (List.range' 1 100) 101 = (List.range' 1 100).drop 1 ++ [101] := by
  exact ⟨sse_backpressure_drop_oldest.1 Nat [7] 8 (by decide),
    sse_backpressure_drop_oldest.2.1 Nat (List.range' 1 100) 101 (by decide)⟩

/-- Claim C3: `queue_for_retry` increments the attempt count, appends to
the retry FIFO and returns true iff the incremented count is at most
`MAX_RETRIES`; otherwise it returns false leaving the count at the limit;
the recorded count never exceeds `MAX_RETRIES`. -/
theorem queue_for_retry_bounded :
    ∀ (s : RetryState) (t : String),
      (∀ u, s.retry_counts u ≤ MAX_RETRIES) →
      ((queue_for_retry s t).2 = true ↔ s.retry_counts t + 1 ≤ MAX_RETRIES) ∧
      ((queue_for_retry s t).2 = true →
        (queue_for_retry s t).1.retry_counts t = s.retry_counts t + 1 ∧
        (queue_for_retry s t).1.retry_queue = s.retry_queue ++ [t]) ∧
      ((queue_for_retry s t).2 = false →
        (queue_for_retry s t).1 = s ∧ s.retry_counts t = MAX_RETRIES) ∧
      (∀ u, (queue_for_retry s t).1.retry_counts u ≤ MAX_RETRIES) := by
  intro s t hinv
  by_cases h : s.retry_counts t < MAX_RETRIES
  · refine ⟨by simp [queue_for_retry, h]; omega, ?_, ?_, ?_⟩
    · intro _
      constructor
      · simp [queue_for_retry, h]
      · simp [queue_for_retry, h]
    · intro hfalse
      simp [queue_for_retry, h] at hfalse
    · intro u
      simp only [queue_for_retry, if_pos h]
      by_cases hu : u = t
      · simp [hu]; omega
      · simp [hu]; exact hinv u
  · refine ⟨by simp [queue_for_retry, h]; omega, ?_, ?_, ?_⟩
    · intro htrue
      simp [queue_for_retry, h] at htrue
    · intro _
      refine ⟨by simp [queue_for_retry, h], ?_⟩
      have := hinv t
      omega
    · intro u
      simp only [queue_for_retry, if_neg h]
      exact hinv u

/-- Witness for C3: from a fresh controller the first retry of a task is
accepted, records one attempt, and queues the task. -/
theorem queue_for_retry_bounded_witness :
    (queue_for_retry ⟨fun _ => 0, []⟩ "t-001").2 = true ∧
    (queue_for_retry ⟨fun _ => 0, []⟩ "t-001").1.retry_counts "t-001" = 1 ∧
    (queue_for_retry ⟨fun _ => 0, []⟩ "t-001").1.retry_queue = ["t-001"] := by
  have h := queue_for_retry_bounded ⟨fun _ => 0, []⟩ "t-001"
    (fun u => by simp [MAX_RETRIES])
  have ht : (queue_for_retry ⟨fun _ => 0, []⟩ "t-001").2 = true :=
    h.1.mpr (by simp [MAX_RETRIES])
  exact ⟨ht, (h.2.1 ht).1, by simpa using (h.2.1 ht).2⟩

/-- Claim C9: `update_stage`, `complete_task` and `fail_task` on an
untracked task id return without creating an entry, without modifying any
existing entry, and without emitting any progress event. -/
theorem missing_task_noop :
    ∀ (s : TrackerState) (now task_id : String) (stage : TaskStage)
      (message retro error : String),
      s.current_tasks.lookup task_id = none →
      update_stage s now task_id stage message = (s, []) ∧
      complete_task s now task_id retro = (s, []) ∧
      fail_task s now task_id error = (s, []) := by
  intro s now task_id stage message retro error h
  refine ⟨?_, ?_, ?_⟩
  · unfold update_stage; rw [h]
  · unfold complete_task; rw [h]
  · unfold fail_task; rw [h]

/-- Witness for C9 on the empty tracker and an untracked id. -/
theorem missing_task_noop_witness :
    update_stage {} "T0" "t-404" TaskStage.testing "" = ({}, []) ∧
    complete_task {} "T0" "t-404" "retro" = ({}, []) ∧
    fail_task {} "T0" "t-404" "err" = ({}, []) := by
  exact missing_task_noop {} "T0" "t-404" TaskStage.testing "" "retro" "err" (by decide)

/-- Claim C5: the stage detector scans the keyword table in declaration
order analyzing, planning, implementing, testing, reviewing and returns the
first stage with a case-insensitive substring match; empty or unmatched
input yields no stage; any input matching an analyzing keyword yields
`analyzing` even when later-stage keywords also occur. -/
theorem detect_stage_spec :
    detect_stage_from_output [] = none ∧
    (∀ output : List Char,
      detect_stage_from_output output =
        (if ANALYZING_PATTERNS.any (fun p => list_contains (lower output) p) then
          some TaskStage.analyzing
        else if PLANNING_PATTERNS.any (fun p => list_contains (lower output) p) then
          some TaskStage.planning
        else if IMPLEMENTING_PATTERNS.any (fun p => list_contains (lower output) p) then
          some TaskStage.implementing
        else if TESTING_PATTERNS.any (fun p => list_contains (lower output) p) then
          some TaskStage.testing
        else if REVIEWING_PATTERNS.any (fun p => list_contains (lower output) p) then
          some TaskStage.reviewing
        else none)) ∧
    (∀ output : List Char,
      ANALYZING_PATTERNS.any (fun p => list_contains (lower output) p) = true →
      detect_stage_from_output output = some TaskStage.analyzing) := by
  refine ⟨by decide, ?_, ?_⟩
  · intro output
    rfl
  · intro output h
    simp only [detect_stage_from_output, STAGE_PATTERNS, scan_stage_table, h, if_true]

/-- Witness for C5: an output containing the analyzing keyword
`checking` and the implementing keyword `implementing` is detected as
`analyzing`. -/
theorem detect_stage_spec_witness :
    detect_stage_from_output (("Checking the repo before implementing").toList) =
      some TaskStage.analyzing := by
  exact detect_stage_spec.2.2 (("Checking the repo before implementing").toList) (by decide)

/-- Claim C10: whenever the file write succeeds, `BeadStore.save` returns
a success result regardless of whether `git add` and `git commit` succeed;
version-control failures are never surfaced, and on commit failure the
result's `git_commit` field holds the pre-existing `HEAD` commit
(truncated to 12 characters) rather than an error. -/
theorem save_success_despite_git_failure :
    ∀ (env : GitEnv) (b : Bead) (now : String) (message : Option String),
      env.writeOk = true →
      ∃ r b2, save env true b now message = Except.ok (r, b2) ∧
        r.success = true ∧
        r.git_commit = get_current_commit env ∧
        (env.commitOk = false → env.revParseOk = true →
          r.git_commit = some (take12 env.head_before)) := by
  intro env b now message hw
  unfold save
  rw [if_pos hw]
  refine ⟨_, _, rfl, rfl, rfl, ?_⟩
  intro hc hr
  simp [get_current_commit, hc, hr]

/-- Witness for C10: with a failing `git add` and `git commit` but a
successful write, `save` still reports success and the pre-save HEAD. -/
theorem save_success_despite_git_failure_witness :
    (save ⟨true, false, false, true, "abcdef123456789", "0000"⟩ true { id := "b1" }
        "2024-01-01" none).toOption.map
      (fun rb => (rb.1.success, rb.1.git_commit)) =
      some (true, some "abcdef123456") := by
  obtain ⟨r, b2, heq, hs, _, hcf⟩ :=
    save_success_despite_git_failure
      ⟨true, false, false, true, "abcdef123456789", "0000"⟩ { id := "b1" }
      "2024-01-01" none rfl
  rw [heq]
  have h12 : take12 ("abcdef123456789") = "abcdef123456" := by decide
  simp [Except.toOption, hs, hcf rfl rfl, h12]

end Vibes
namespace Vibes

/-! ## C1 helper lemmas -/

lemma claim_task_eq_found (s : ClaimStore) (now : Nat) (bead_id holder_id : String)
    (timeout : Nat) (lb : LockedBead) (hlk : s.beads.lookup bead_id = some lb) :
    claim_task s now bead_id holder_id timeout =
      if (lb.status = "pending" ∨ lb.status = "needs_review") ∧
          (lb.lock_holder = none ∨ lb.lock_start + lb.lock_timeout < now) then
        (some (bead_id ++ ":" ++ holder_id),
          store_set s bead_id
            { status := "in_progress", lock_holder := some holder_id,
              lock_start := now, lock_timeout := timeout })
      else (none, s) := by
  unfold claim_task
  rw [hlk]

lemma claim_task_eq_missing (s : ClaimStore) (now : Nat)
    (bead_id holder_id : String) (timeout : Nat)
    (hlk : s.beads.lookup bead_id = none) :
    claim_task s now bead_id holder_id timeout = (none, s) := by
  unfold claim_task
  rw [hlk]

lemma claim_task_in_progress_fails (s : ClaimStore) (bead_id : String)
    (lb : LockedBead) (hlk : s.beads.lookup bead_id = some lb)
    (hst : lb.status = "in_progress") :
    ∀ (now : Nat) (holder_id : String) (tm : Nat),
      claim_task s now bead_id holder_id tm = (none, s) := by
  intro now holder_id tm
  have hc : ¬ ((lb.status = "pending" ∨ lb.status = "needs_review") ∧
      (lb.lock_holder = none ∨ lb.lock_start + lb.lock_timeout < now)) := by
    rintro ⟨h1, _⟩
    rw [hst] at h1
    rcases h1 with h1 | h1 <;> simp at h1
  rw [claim_task_eq_found s now bead_id holder_id tm lb hlk, if_neg hc]

lemma claim_task_success_state (s : ClaimStore) (now : Nat)
    (bead_id holder_id : String) (timeout : Nat) (tok : String) (s2 : ClaimStore)
    (heq : claim_task s now bead_id holder_id timeout = (some tok, s2)) :
    s2.beads.lookup bead_id =
      some { status := "in_progress", lock_holder := some holder_id,
             lock_start := now, lock_timeout := timeout } := by
  cases hlk : s.beads.lookup bead_id with
  | none =>
    rw [claim_task_eq_missing s now bead_id holder_id timeout hlk] at heq
    simp at heq
  | some lb =>
    rw [claim_task_eq_found s now bead_id holder_id timeout lb hlk] at heq
    by_cases hc : (lb.status = "pending" ∨ lb.status = "needs_review") ∧
        (lb.lock_holder = none ∨ lb.lock_start + lb.lock_timeout < now)
    · rw [if_pos hc] at heq
      simp only [Prod.mk.injEq, Option.some.injEq] at heq
      obtain ⟨_, hs2⟩ := heq
      subst hs2
      unfold store_set
      exact lookup_map_replace bead_id _ s.beads (by simp [hlk])
    · rw [if_neg hc] at heq
      simp at heq

lemma run_claims_all_fail :
    ∀ (calls : List (Nat × String × Nat)) (s : ClaimStore) (bead_id : String)
      (lb : LockedBead),
      s.beads.lookup bead_id = some lb → lb.status = "in_progress" →
      ∀ r ∈ run_claims s bead_id calls, r = false := by
  intro calls
  induction calls with
  | nil => intro s bead_id lb _ _ r hr; simp [run_claims] at hr
  | cons c rest ih =>
    intro s bead_id lb hlk hst r hr
    rcases c with ⟨t, h, tm⟩
    have hfail := claim_task_in_progress_fails s bead_id lb hlk hst t h tm
    simp only [run_claims, hfail] at hr
    rw [List.mem_cons] at hr
    rcases hr with hr | hr
    · simpa using hr
    · exact ih s bead_id lb hlk hst r hr

/-- Claim C1 (the store method `claim_task` is absent from src/ and is
modelled from the spec): the claim operation succeeds iff the Bead exists,
its status is `pending` or `needs_review`, and either no lock holder is
set or the lock deadline (start + timeout) has passed; on success it sets
the lock holder to the caller, sets status to `in_progress`, persists the
Bead and returns a lock token; and among any further claim calls on the
same Bead issued while the lock is unexpired, none succeeds — so at most
one claim in such a schedule wins. -/
theorem claim_task_semantics :
    ∀ (s : ClaimStore) (now : Nat) (bead_id holder_id : String) (timeout : Nat),
      ((claim_task s now bead_id holder_id timeout).1.isSome = true ↔
        ∃ lb, s.beads.lookup bead_id = some lb ∧
          (lb.status = "pending" ∨ lb.status = "needs_review") ∧
          (lb.lock_holder = none ∨ lb.lock_start + lb.lock_timeout < now)) ∧
      (∀ tok s2, claim_task s now bead_id holder_id timeout = (some tok, s2) →
        s2.beads.lookup bead_id =
          some { status := "in_progress", lock_holder := some holder_id,
                 lock_start := now, lock_timeout := timeout }) ∧
      (∀ tok s2 calls, claim_task s now bead_id holder_id timeout = (some tok, s2) →
        (∀ c ∈ calls, (c : Nat × String × Nat).1 ≤ now + timeout) →
        ∀ r ∈ run_claims s2 bead_id calls, r = false) := by
  intro s now bead_id holder_id timeout
  refine ⟨?_, ?_, ?_⟩
  · cases hlk : s.beads.lookup bead_id with
    | none =>
      rw [claim_task_eq_missing s now bead_id holder_id timeout hlk]
      simp [hlk]
    | some lb =>
      rw [claim_task_eq_found s now bead_id holder_id timeout lb hlk]
      by_cases hc : (lb.status = "pending" ∨ lb.status = "needs_review") ∧
          (lb.lock_holder = none ∨ lb.lock_start + lb.lock_timeout < now)
      · rw [if_pos hc]
        simp only [Option.isSome_some, true_iff]
        exact ⟨lb, rfl, hc⟩
      · rw [if_neg hc]
        simp only [Option.isSome_none, Bool.false_eq_true, false_iff]
        rintro ⟨lb', hlk', h1, h2⟩
        simp only [Option.some.injEq] at hlk'
        subst hlk'
        exact hc ⟨h1, h2⟩
  · intro tok s2 heq
    exact claim_task_success_state s now bead_id holder_id timeout tok s2 heq
  · intro tok s2 calls heq _
    have hpost := claim_task_success_state s now bead_id holder_id timeout tok s2 heq
    exact run_claims_all_fail calls s2 bead_id _ hpost rfl

/-- Witness for C1: claiming a pending Bead at time 10 succeeds, records
the holder and `in_progress` status, and a second claim at time 20 (within
the 30-minute lock window) fails. -/
theorem claim_task_semantics_witness :
    (claim_task ⟨[("t-001", { status := "pending" })]⟩ 10 "t-001" "agentA" 30).1.isSome
        = true ∧
    (claim_task ⟨[("t-001", { status := "pending" })]⟩ 10 "t-001" "agentA"
          30).2.beads.lookup "t-001" =
      some { status := "in_progress", lock_holder := some "agentA",
             lock_start := 10, lock_timeout := 30 } ∧
    (claim_task (claim_task ⟨[("t-001", { status := "pending" })]⟩ 10 "t-001"
          "agentA" 30).2 20 "t-001" "agentB" 30).1.isSome = false := by
  have hsem := claim_task_semantics ⟨[("t-001", { status := "pending" })]⟩ 10
    "t-001" "agentA" 30
  have heq : claim_task ⟨[("t-001", { status := "pending" })]⟩ 10 "t-001" "agentA" 30 =
      (some ("t-001:agentA"),
        ⟨[("t-001", { status := "in_progress", lock_holder := some "agentA",
                      lock_start := 10, lock_timeout := 30 })]⟩) := by decide
  refine ⟨hsem.1.mpr ⟨{ status := "pending" }, by decide, Or.inl rfl, Or.inl rfl⟩,
    hsem.2.1 ("t-001:agentA") _ heq, ?_⟩
  have h3 := hsem.2.2 ("t-001:agentA") _ [(20, "agentB", 30)] heq
    (by
      intro c hc
      rw [List.mem_singleton] at hc
      subst hc
      decide)
  rw [heq]
  apply h3
  simp [run_claims]

end Vibes

namespace Vibes

/-- Claim C4 counterexample: with two `in_progress` Beads loaded in the
order low-priority first, `get_next` returns the priority-1 Bead `a` even
though the priority-5 Bead `b` is also `in_progress` — the code takes
`in_progress[0]` without sorting, refuting "returns the highest-priority
Bead whose status is in_progress". -/
theorem get_next_in_progress_not_highest_priority :
    (get_next
        [{ id := "a", status := "in_progress", priority := 1 },
         { id := "b", status := "in_progress", priority := 5 }]).map
      (fun b => (b.id, b.priority)) = some ("a", 1) ∧
    ({ id := "b", status := "in_progress", priority := 5 } : Bead) ∈
        [({ id := "a", status := "in_progress", priority := 1 } : Bead),
         { id := "b", status := "in_progress", priority := 5 }] ∧
    (1 : Int) < 5 := by decide

/-- Claim C4 (amended): `get_next` returns the first-loaded Bead with
status `in_progress` if any exists (not the highest-priority one — the
in_progress and needs_review lists are not sorted); otherwise the
first-loaded `needs_review` Bead; otherwise the pending Bead that is first
under priority descending then id ascending; otherwise null. -/
theorem get_next_characterization :
    ∀ beads : List Bead,
      (∀ b l, beads.filter (fun x => x.status == "in_progress") = b :: l →
        get_next beads = some b ∧ b ∈ beads ∧ b.status = "in_progress") ∧
      (beads.filter (fun x => x.status == "in_progress") = [] →
        ∀ b l, beads.filter (fun x => x.status == "needs_review") = b :: l →
        get_next beads = some b ∧ b ∈ beads ∧ b.status = "needs_review") ∧
      (beads.filter (fun x => x.status == "in_progress") = [] →
        beads.filter (fun x => x.status == "needs_review") = [] →
        ∀ x l, beads.filter (fun x => x.status == "pending") = x :: l →
        ∃ b, get_next beads = some b ∧ b ∈ beads ∧ b.status = "pending" ∧
          ∀ c ∈ beads, c.status = "pending" → le_pending b c = true) ∧
      (beads.filter (fun x => x.status == "in_progress") = [] →
        beads.filter (fun x => x.status == "needs_review") = [] →
        beads.filter (fun x => x.status == "pending") = [] →
        get_next beads = none) := by
  intro beads
  refine ⟨?_, ?_, ?_, ?_⟩
  · intro b l hf
    have hmem : b ∈ beads.filter (fun x => x.status == "in_progress") := by
      rw [hf]; exact List.mem_cons_self b l
    rw [List.mem_filter] at hmem
    refine ⟨?_, hmem.1, by simpa using hmem.2⟩
    unfold get_next
    rw [hf]
  · intro hip b l hf
    have hmem : b ∈ beads.filter (fun x => x.status == "needs_review") := by
      rw [hf]; exact List.mem_cons_self b l
    rw [List.mem_filter] at hmem
    refine ⟨?_, hmem.1, by simpa using hmem.2⟩
    unfold get_next
    rw [hip, hf]
  · intro hip hnr x l hf
    have hlen : ((beads.filter (fun x => x.status == "pending")).mergeSort
        le_pending).length = (x :: l).length := by
      rw [List.length_mergeSort, hf]
    cases hms : (beads.filter (fun x => x.status == "pending")).mergeSort le_pending with
    | nil => rw [hms] at hlen; simp at hlen
    | cons b rest =>
      have hsorted := @List.sorted_mergeSort Bead le_pending
        le_pending_trans le_pending_total
        (beads.filter (fun x => x.status == "pending"))
      rw [hms, List.pairwise_cons] at hsorted
      have hbmem : b ∈ beads.filter (fun x => x.status == "pending") := by
        rw [← @List.mem_mergeSort Bead le_pending b
          (beads.filter (fun x => x.status == "pending")), hms]
        exact List.mem_cons_self b rest
      rw [List.mem_filter] at hbmem
      refine ⟨b, ?_, hbmem.1, by simpa using hbmem.2, ?_⟩
      · unfold get_next
        rw [hip, hnr, hms]
      · intro c hc hcs
        have hcmem : c ∈ (beads.filter (fun x => x.status == "pending")).mergeSort
            le_pending := by
          rw [List.mem_mergeSort, List.mem_filter]
          exact ⟨hc, by simp [hcs]⟩
        rw [hms, List.mem_cons] at hcmem
        rcases hcmem with rfl | hcmem
        · exact le_pending_refl c
        · exact hsorted.1 c hcmem
  · intro hip hnr hp
    unfold get_next
    rw [hip, hnr, hp, List.mergeSort_nil]

/-- Witness for the amended C4 theorem: a single in_progress Bead is
returned as is. -/
theorem get_next_characterization_witness :
    get_next [{ id := "a", status := "in_progress", priority := 1 }] =
      some { id := "a", status := "in_progress", priority := 1 } := by
  exact ((get_next_characterization
    [{ id := "a", status := "in_progress", priority := 1 }]).1
    { id := "a", status := "in_progress", priority := 1 } [] (by decide)).1

end Vibes

namespace Vibes

/-! ## Tracker equation lemmas -/

lemma start_task_fst (s : TrackerState) (now task_id task_name : String) :
    (start_task s now task_id task_name).1 =
      { s with
          current_tasks :=
            assocSet s.current_tasks task_id
              { task_id := task_id, task_name := task_name, stage := .starting,
                stage_message := "Picking up task...", started_at := now,
                updated_at := now, progress_percent := 5 } } := rfl

lemma update_stage_missing (s : TrackerState) (now task_id : String)
    (stage : TaskStage) (message : String)
    (hlk : s.current_tasks.lookup task_id = none) :
    update_stage s now task_id stage message = (s, []) := by
  unfold update_stage; rw [hlk]

lemma update_stage_fst_found (s : TrackerState) (now task_id : String)
    (stage : TaskStage) (message : String) (p : TaskProgress)
    (hlk : s.current_tasks.lookup task_id = some p) :
    (update_stage s now task_id stage message).1 =
      { s with
          current_tasks :=
            assocSet s.current_tasks task_id
              { p with
                  stage := stage
                  stage_message := if message = "" then display_name stage ++ "..."
                    else message
                  updated_at := now
                  progress_percent := stage_progress stage } } := by
  unfold update_stage; rw [hlk]

lemma complete_task_missing (s : TrackerState) (now task_id retro : String)
    (hlk : s.current_tasks.lookup task_id = none) :
    complete_task s now task_id retro = (s, []) := by
  unfold complete_task; rw [hlk]

lemma complete_task_fst_found (s : TrackerState) (now task_id retro : String)
    (p : TaskProgress) (hlk : s.current_tasks.lookup task_id = some p) :
    (complete_task s now task_id retro).1 =
      { current_tasks :=
          assocSet s.current_tasks task_id
            { p with
                stage := .completed
                stage_message := "Task completed successfully"
                updated_at := now
                progress_percent := 100
                retro := some retro },
        cleanup_scheduled := s.cleanup_scheduled ++ [task_id] } := by
  unfold complete_task; rw [hlk]

lemma fail_task_missing (s : TrackerState) (now task_id error : String)
    (hlk : s.current_tasks.lookup task_id = none) :
    fail_task s now task_id error = (s, []) := by
  unfold fail_task; rw [hlk]

lemma fail_task_fst_found (s : TrackerState) (now task_id error : String)
    (p : TaskProgress) (hlk : s.current_tasks.lookup task_id = some p) :
    (fail_task s now task_id error).1 =
      { s with
          current_tasks :=
            assocSet s.current_tasks task_id
              { p with
                  stage := .failed
                  stage_message := "Task failed"
                  updated_at := now
                  error := some error } } := by
  unfold fail_task; rw [hlk]

lemma percentOf_fail (s : TrackerState) (now task_id error u : String) :
    percentOf (fail_task s now task_id error).1 u = percentOf s u := by
  cases hlk : s.current_tasks.lookup task_id with
  | none => rw [fail_task_missing s now task_id error hlk]
  | some p =>
    rw [fail_task_fst_found s now task_id error p hlk]
    unfold percentOf
    by_cases hu : u = task_id
    · subst hu
      rw [lookup_assocSet_self, hlk]
      rfl
    · exact congrArg _ (lookup_assocSet_ne _ _ _ _ hu)

lemma stage_progress_le_100 : ∀ st : TaskStage, stage_progress st ≤ 100 := by
  intro st
  cases st <;> decide

/-- Claim C6 counterexample: starting a task (5%), updating to `testing`
(80%) and then updating back to `analyzing` (15%) makes the tracked
percent decrease from 80 to 15 on a transition that is not into `failed`,
refuting "percent never decreases except on a transition into failed". -/
theorem percent_decreases_without_failed :
    percentOf ((update_stage ((start_task {} "T0" "t1" "Task").1) "T1" "t1"
        TaskStage.testing "").1) "t1" = some 80 ∧
    percentOf ((update_stage ((update_stage ((start_task {} "T0" "t1" "Task").1)
        "T1" "t1" TaskStage.testing "").1) "T2" "t1" TaskStage.analyzing "").1) "t1" =
      some 15 ∧
    stageOf ((update_stage ((update_stage ((start_task {} "T0" "t1" "Task").1)
        "T1" "t1" TaskStage.testing "").1) "T2" "t1" TaskStage.analyzing "").1) "t1" =
      some TaskStage.analyzing ∧
    (15 : Nat) < 80 := by decide

/-- Claim C6 (amended): the tracked percent of a task can decrease not
only into `failed`: a decrease happens exactly through `start_task`
re-initialising the entry to 5% or through `update_stage` moving the task
to any stage whose mapped percent is lower (backward stage moves included,
`failed` mapping to 0 being one instance); `complete_task` never lowers a
percent that is at most 100 and `fail_task` preserves every percent
unchanged. -/
theorem percent_decrease_classification :
    ∀ (s : TrackerState) (op : TrackerOp),
      (∀ t p p', p ≤ 100 →
        percentOf s t = some p →
        percentOf (applyOp s op).1 t = some p' →
        p' < p →
        (match op with
         | TrackerOp.start _ id _ => id = t
         | TrackerOp.update _ id stage _ => id = t ∧ stage_progress stage < p
         | _ => False)) ∧
      (∀ now task_id e u, percentOf (fail_task s now task_id e).1 u = percentOf s u) ∧
      ((∀ u q, percentOf s u = some q → q ≤ 100) →
        ∀ u q, percentOf (applyOp s op).1 u = some q → q ≤ 100) := by
  intro s op
  refine ⟨?_, fun now task_id e u => percentOf_fail s now task_id e u, ?_⟩
  · intro t p p' hple hp hp' hlt
    cases op with
    | start now id n =>
      by_cases hu : t = id
      · exact hu.symm
      · exfalso
        rw [show applyOp s (TrackerOp.start now id n) = start_task s now id n from rfl,
          start_task_fst] at hp'
        unfold percentOf at hp'
        rw [lookup_assocSet_ne _ _ _ _ hu] at hp'
        rw [percentOf] at hp
        rw [hp] at hp'
        simp at hp'
        omega
    | update now id stage m =>
      cases hlk : s.current_tasks.lookup id with
      | none =>
        exfalso
        rw [show applyOp s (TrackerOp.update now id stage m) =
          update_stage s now id stage m from rfl,
          update_stage_missing s now id stage m hlk] at hp'
        rw [percentOf] at hp hp'
        rw [hp] at hp'
        simp at hp'
        omega
      | some pr =>
        by_cases hu : t = id
        · subst hu
          refine ⟨rfl, ?_⟩
          rw [show applyOp s (TrackerOp.update now t stage m) =
            update_stage s now t stage m from rfl,
            update_stage_fst_found s now t stage m pr hlk] at hp'
          unfold percentOf at hp'
          rw [lookup_assocSet_self] at hp'
          simp at hp'
          omega
        · exfalso
          rw [show applyOp s (TrackerOp.update now id stage m) =
            update_stage s now id stage m from rfl,
            update_stage_fst_found s now id stage m pr hlk] at hp'
          unfold percentOf at hp'
          rw [lookup_assocSet_ne _ _ _ _ hu] at hp'
          rw [percentOf] at hp
          rw [hp] at hp'
          simp at hp'
          omega
    | complete now id retro =>
      exfalso
      cases hlk : s.current_tasks.lookup id with
      | none =>
        rw [show applyOp s (TrackerOp.complete now id retro) =
          complete_task s now id retro from rfl,
          complete_task_missing s now id retro hlk] at hp'
        rw [percentOf] at hp hp'
        rw [hp] at hp'
        simp at hp'
        omega
      | some pr =>
        rw [show applyOp s (TrackerOp.complete now id retro) =
          complete_task s now id retro from rfl,
          complete_task_fst_found s now id retro pr hlk] at hp'
        unfold percentOf at hp'
        by_cases hu : t = id
        · subst hu
          rw [lookup_assocSet_self] at hp'
          simp at hp'
          omega
        · rw [lookup_assocSet_ne _ _ _ _ hu] at hp'
          rw [percentOf] at hp
          rw [hp] at hp'
          simp at hp'
          omega
    | fail now id e =>
      exfalso
      rw [show applyOp s (TrackerOp.fail now id e) = fail_task s now id e from rfl,
        percentOf_fail] at hp'
      rw [hp] at hp'
      simp at hp'
      omega
  · intro hinv u q hq
    cases op with
    | start now id n =>
      rw [show applyOp s (TrackerOp.start now id n) = start_task s now id n from rfl,
        start_task_fst] at hq
      unfold percentOf at hq
      by_cases hu : u = id
      · subst hu
        rw [lookup_assocSet_self] at hq
        simp at hq
        omega
      · rw [lookup_assocSet_ne _ _ _ _ hu] at hq
        exact hinv u q hq
    | update now id stage m =>
      cases hlk : s.current_tasks.lookup id with
      | none =>
        rw [show applyOp s (TrackerOp.update now id stage m) =
          update_stage s now id stage m from rfl,
          update_stage_missing s now id stage m hlk] at hq
        exact hinv u q hq
      | some pr =>
        rw [show applyOp s (TrackerOp.update now id stage m) =
          update_stage s now id stage m from rfl,
          update_stage_fst_found s now id stage m pr hlk] at hq
        unfold percentOf at hq
        by_cases hu : u = id
        · subst hu
          rw [lookup_assocSet_self] at hq
          simp at hq
          have := stage_progress_le_100 stage
          omega
        · rw [lookup_assocSet_ne _ _ _ _ hu] at hq
          exact hinv u q hq
    | complete now id retro =>
      cases hlk : s.current_tasks.lookup id with
      | none =>
        rw [show applyOp s (TrackerOp.complete now id retro) =
          complete_task s now id retro from rfl,
          complete_task_missing s now id retro hlk] at hq
        exact hinv u q hq
      | some pr =>
        rw [show applyOp s (TrackerOp.complete now id retro) =
          complete_task s now id retro from rfl,
          complete_task_fst_found s now id retro pr hlk] at hq
        unfold percentOf at hq
        by_cases hu : u = id
        · subst hu
          rw [lookup_assocSet_self] at hq
          simp at hq
          omega
        · rw [lookup_assocSet_ne _ _ _ _ hu] at hq
          exact hinv u q hq
    | fail now id e =>
      rw [show applyOp s (TrackerOp.fail now id e) = fail_task s now id e from rfl,
        percentOf_fail] at hq
      exact hinv u q hq

/-- Witness for the amended C6 theorem: the concrete 80% -> 15% drop is
classified as an `update_stage` into the lower-mapped stage `analyzing`. -/
theorem percent_decrease_classification_witness :
    ("t1" = "t1" ∧ stage_progress TaskStage.analyzing < 80) ∧
    percentOf (fail_task ((update_stage ((start_task {} "T0" "t1" "Task").1) "T1"
        "t1" TaskStage.testing "").1) "T2" "t1" "boom").1 "t1" =
      percentOf ((update_stage ((start_task {} "T0" "t1" "Task").1) "T1" "t1"
        TaskStage.testing "").1) "t1" := by
  have h := percent_decrease_classification
    ((update_stage ((start_task {} "T0" "t1" "Task").1) "T1" "t1"
      TaskStage.testing "").1)
    (TrackerOp.update "T2" "t1" TaskStage.analyzing "")
  exact ⟨h.1 "t1" 80 15 (by decide) (by decide) (by decide) (by decide),
    h.2.1 "T2" "t1" "boom" "t1"⟩

end Vibes

namespace Vibes

lemma run_cleanups_lookup (s : TrackerState) (t : String) :
    (run_cleanups s).current_tasks.lookup t =
      if s.cleanup_scheduled.contains t then none
      else s.current_tasks.lookup t := by
  unfold run_cleanups
  rw [lookup_filter_key (fun k => !(s.cleanup_scheduled.contains k)) t s.current_tasks]
  cases hc : s.cleanup_scheduled.contains t with
  | true => simp [hc]
  | false => simp [hc]

/-- Claim C7 counterexample: failing a tracked task schedules no cleanup
(`cleanup_scheduled` stays empty), and after the 30-second cleanup pass the
failed entry is still in the tracker — refuting "the entry is removed from
the tracker 30 seconds after the terminal transition" for entries that
reach `failed` via the fail operation. -/
theorem fail_task_never_expires :
    (fail_task ((start_task {} "T0" "t1" "Task").1) "T1" "t1"
        "boom").1.cleanup_scheduled = [] ∧
    ((run_cleanups ((fail_task ((start_task {} "T0" "t1" "Task").1) "T1" "t1"
        "boom").1)).current_tasks.lookup "t1").map (fun p => p.stage) =
      some TaskStage.failed := by decide

/-- Claim C7 (amended): an entry completed through `complete_task` is
scheduled for removal and is gone from the tracker (hence from the all()
snapshot) once the 30-second cleanup fires; but an entry failed through
`fail_task` is never scheduled for removal and survives every cleanup
pass. -/
theorem terminal_cleanup_semantics :
    ∀ (s : TrackerState) (now task_id retro error : String),
      ((s.current_tasks.lookup task_id).isSome = true →
        (complete_task s now task_id retro).1.cleanup_scheduled =
          s.cleanup_scheduled ++ [task_id] ∧
        (run_cleanups (complete_task s now task_id retro).1).current_tasks.lookup
          task_id = none) ∧
      ((fail_task s now task_id error).1.cleanup_scheduled = s.cleanup_scheduled ∧
        ((s.current_tasks.lookup task_id).isSome = true →
          s.cleanup_scheduled.contains task_id = false →
          ((run_cleanups (fail_task s now task_id error).1).current_tasks.lookup
            task_id).isSome = true)) := by
  intro s now task_id retro error
  refine ⟨?_, ?_, ?_⟩
  · intro hsome
    obtain ⟨p, hlk⟩ := Option.isSome_iff_exists.mp hsome
    rw [complete_task_fst_found s now task_id retro p hlk]
    refine ⟨rfl, ?_⟩
    rw [run_cleanups_lookup]
    have hct : (s.cleanup_scheduled ++ [task_id]).contains task_id = true := by
      simp [List.contains]
    simp only [hct, if_pos]
  · cases hlk : s.current_tasks.lookup task_id with
    | none => rw [fail_task_missing s now task_id error hlk]
    | some p => rw [fail_task_fst_found s now task_id error p hlk]
  · intro hsome hnc
    obtain ⟨p, hlk⟩ := Option.isSome_iff_exists.mp hsome
    rw [fail_task_fst_found s now task_id error p hlk, run_cleanups_lookup]
    simp only [hnc, lookup_assocSet_self]
    rfl

/-- Witness for the amended C7 theorem: completing schedules and removes
the entry, failing leaves it behind after the cleanup pass. -/
theorem terminal_cleanup_semantics_witness :
    (complete_task ((start_task {} "T0" "t1" "Task").1) "T1" "t1"
        "done").1.cleanup_scheduled = ["t1"] ∧
    (run_cleanups (complete_task ((start_task {} "T0" "t1" "Task").1) "T1" "t1"
        "done").1).current_tasks.lookup "t1" = none ∧
    (fail_task ((start_task {} "T0" "t1" "Task").1) "T1" "t1"
        "boom").1.cleanup_scheduled = [] ∧
    ((run_cleanups (fail_task ((start_task {} "T0" "t1" "Task").1) "T1" "t1"
        "boom").1).current_tasks.lookup "t1").isSome = true := by
  have h := terminal_cleanup_semantics ((start_task {} "T0" "t1" "Task").1)
    "T1" "t1" "done" "boom"
  have h1 := h.1 (by decide)
  exact ⟨h1.1.trans (by decide), h1.2, h.2.1, h.2.2 (by decide) (by decide)⟩

end Vibes

namespace Vibes

lemma lookup_none_of_keys {β : Type} (k : String) :
    ∀ l : List (String × β), (∀ kv ∈ l, kv.1 ≠ k) → l.lookup k = none := by
  intro l
  induction l with
  | nil => intro _; rfl
  | cons a tl ih =>
    intro h
    have hne : (k == a.1) = false :=
      beq_eq_false_iff_ne.mpr (fun he => (h a (List.mem_cons_self a tl)) he.symm)
    simp only [List.lookup, hne]
    exact ih (fun kv hkv => h kv (List.mem_cons_of_mem a hkv))

lemma to_yaml_keys (b : Bead) : ∀ kv ∈ to_yaml b, kv.1 ∈ KNOWN_BEAD_KEYS := by
  intro kv hm
  simp only [to_yaml, List.mem_filterMap] at hm
  obtain ⟨a, ha, heq⟩ := hm
  have hfst : kv.1 = a.1 := by
    cases h2 : a.2 with
    | none => rw [h2] at heq; simp at heq
    | some v =>
      rw [h2] at heq
      have h3 : (a.1, v) = kv := by simpa using heq
      rw [← h3]
  simp only [List.mem_cons, List.not_mem_nil, or_false] at ha
  rw [hfst]
  rcases ha with rfl | rfl | rfl | rfl | rfl | rfl | rfl | rfl | rfl | rfl | rfl |
    rfl | rfl | rfl <;> simp [KNOWN_BEAD_KEYS]

/-- Claim C8 counterexample: a Bead document carrying the unknown key
`my_custom_key` loses that key on deserialize-then-serialize:
`from_yaml` reads only the schema keys and `to_yaml` writes only the
schema keys, refuting "keys outside the known schema survive a
round-trip". -/
theorem unknown_key_lost_roundtrip :
    ([("id", YVal.s "b1"), ("my_custom_key", YVal.s "keep")] : YDoc).lookup
        "my_custom_key" = some (YVal.s "keep") ∧
    (yaml_round_trip [("id", YVal.s "b1"), ("my_custom_key", YVal.s "keep")]
        "T0").lookup "my_custom_key" = none := by decide

/-- Claim C8 (amended): the round trip preserves only the fourteen schema
keys — deserializing and re-serializing a Bead document drops every key
outside the known schema. -/
theorem roundtrip_known_keys_only :
    ∀ (doc : YDoc) (now : String) (k : String),
      ¬ k ∈ KNOWN_BEAD_KEYS →
      (yaml_round_trip doc now).lookup k = none := by
  intro doc now k hk
  unfold yaml_round_trip
  apply lookup_none_of_keys
  intro kv hkv he
  exact hk (he ▸ to_yaml_keys (from_yaml doc now) kv hkv)

/-- Witness for the amended C8 theorem at a concrete document and unknown
key. -/
theorem roundtrip_known_keys_only_witness :
    (yaml_round_trip [("id", YVal.s "b1"), ("zzz", YVal.i 7)] "T0").lookup "zzz" =
      none := by
  exact roundtrip_known_keys_only [("id", YVal.s "b1"), ("zzz", YVal.i 7)] "T0"
    "zzz" (by decide)

end Vibes
